import Mathlib

/-!
# Pong: the per-frame update of `Game.cpp`

A shallow embedding of `src/Game.cpp`.  The C++ `float` values are read over
exact rationals (`ℚ`), the `Uint32` tick counter over `Nat` with explicit
reduction modulo `2^32`.  The calls into SDL are the environment: every value
that the code reads from SDL (the result of `SDL_Init`, the event queue, the
keyboard state, each reading of `SDL_GetTicks`) is an argument of the function
that reads it.  `Game.h` declares the members; the fields below are the
members that `Game.cpp` reads and writes (the window and renderer handles
only matter through being null or not).
-/

namespace Pong

/-! ## Constants and data -/

/-- The constant `const int thickness = 15;`. -/
def thickness : Int := 15

/-- The constant `const float paddleH = 100.0f;`. -/
def paddleH : ℚ := 100

/-- The two-float vector used for positions and velocities. -/
structure Vector2 where
  x : ℚ
  y : ℚ
deriving DecidableEq, Repr

/-- The members of `Game` that the simulation uses. -/
structure Game where
  mIsRunning : Bool
  mTicksCount : Nat
  mPaddleDir : Int
  mPaddlePos : Vector2
  mBallPos : Vector2
  mBallVel : Vector2
deriving DecidableEq, Repr

/-- The constructor `Game::Game()`: running, tick count 0, paddle direction 0.
The three vectors are not initialised by the constructor, so their content is
whatever the caller supplies. -/
def Game.construct (paddlePos ballPos ballVel : Vector2) : Game :=
  { mIsRunning := true, mTicksCount := 0, mPaddleDir := 0,
    mPaddlePos := paddlePos, mBallPos := ballPos, mBallVel := ballVel }

/-- The function `Game::Initialize` (lines 10-53).  `sdlResult` is the value of
`SDL_Init`, `window` and `renderer` say whether `SDL_CreateWindow` and
`SDL_CreateRenderer` returned a non-null handle.  The result is the returned
flag and the object afterwards. -/
def Initialize (sdlResult : Int) (window renderer : Bool) (g : Game) : Bool × Game :=
  if sdlResult ≠ 0 then (false, g)
  else if !window then (false, g)
  else if !renderer then (false, g)
  else
    (true,
      { g with
        mPaddlePos := ⟨10, 768 / 2⟩
        mBallPos := ⟨1024 / 2, 768 / 2⟩
        mBallVel := ⟨-200, 235⟩ })

/-- The state at the start of a run: constructed, then initialised with every
SDL call succeeding. -/
def startState (paddlePos ballPos ballVel : Vector2) : Game :=
  (Initialize 0 true true (Game.construct paddlePos ballPos ballVel)).2

/-! ## Input -/

/-- The kinds of SDL event that `ProcessInput` tells apart. -/
inductive Event where
  | quit
  | other
deriving DecidableEq, Repr

/-- The keys read from the keyboard-state snapshot. -/
structure Keys where
  escape : Bool
  w : Bool
  s : Bool
deriving DecidableEq, Repr

/-- The event loop of `ProcessInput` (lines 68-76): a quit event clears the
running flag, every other event is dropped. -/
def drainEvents (g : Game) : List Event → Game
  | [] => g
  | Event.quit :: rest => drainEvents { g with mIsRunning := false } rest
  | Event.other :: rest => drainEvents g rest

/-- The function `Game::ProcessInput` (lines 65-96). -/
def ProcessInput (g : Game) (events : List Event) (keys : Keys) : Game :=
  let g1 := drainEvents g events
  let g2 := if keys.escape then { g1 with mIsRunning := false } else g1
  let g3 := { g2 with mPaddleDir := 0 }
  let g4 := if keys.w then { g3 with mPaddleDir := g3.mPaddleDir - 1 } else g3
  if keys.s then { g4 with mPaddleDir := g4.mPaddleDir + 1 } else g4

/-! ## Time -/

/-- Subtraction of two `Uint32` values. -/
def u32sub (a b : Nat) : Nat := (a % 4294967296 + 4294967296 - b % 4294967296) % 4294967296

/-- The SDL macro `SDL_TICKS_PASSED(A, B)`, which is `((Sint32)((B) - (A)) <= 0)`. -/
def SDL_TICKS_PASSED (a b : Nat) : Bool :=
  let d := u32sub b a
  d == 0 || decide (2147483648 ≤ d)

/-- The frame time of `UpdateGame` (lines 104-113): the elapsed ticks divided
by 1000, cut off at 0.05.  `now` is the reading of `SDL_GetTicks` at line 104. -/
def deltaTimeOf (now mTicksCount : Nat) : ℚ :=
  let deltaTime : ℚ := (u32sub now mTicksCount : ℚ) / 1000
  if deltaTime > 5 / 100 then 5 / 100 else deltaTime

/-! ## The update -/

/-- The paddle part of `UpdateGame` (lines 116-129). -/
def updatePaddle (g : Game) (deltaTime : ℚ) : Game :=
  if g.mPaddleDir ≠ 0 then
    let y := g.mPaddlePos.y + (g.mPaddleDir : ℚ) * 300 * deltaTime
    let y :=
      if y < paddleH / 2 + (thickness : ℚ) then paddleH / 2 + (thickness : ℚ)
      else if y > 768 - paddleH / 2 - (thickness : ℚ) then 768 - paddleH / 2 - (thickness : ℚ)
      else y
    { g with mPaddlePos := { g.mPaddlePos with y := y } }
  else g

/-- The position update of the ball (lines 132-133). -/
def moveBall (g : Game) (deltaTime : ℚ) : Game :=
  { g with
    mBallPos :=
      ⟨g.mBallPos.x + g.mBallVel.x * deltaTime, g.mBallPos.y + g.mBallVel.y * deltaTime⟩ }

/-- The horizontal collision chain (lines 137-157): paddle hit, else right
wall, else exit on the left. -/
def bounceX (g : Game) : Game :=
  let diff := g.mPaddlePos.y - g.mBallPos.y
  let diff := if diff > 0 then diff else -diff
  if diff ≤ paddleH / 2 ∧ g.mBallPos.x ≤ 25 ∧ g.mBallPos.x ≥ 20 ∧ g.mBallVel.x < 0 then
    { g with mBallVel := { g.mBallVel with x := g.mBallVel.x * (-1) } }
  else if g.mBallPos.x ≥ 1024 - (thickness : ℚ) ∧ g.mBallVel.x > 0 then
    { g with mBallVel := { g.mBallVel with x := g.mBallVel.x * (-1) } }
  else if g.mBallPos.x ≤ 0 then
    { g with mIsRunning := false }
  else g

/-- The vertical collision chain (lines 160-167): top wall, else bottom wall. -/
def bounceY (g : Game) : Game :=
  if g.mBallPos.y ≤ (thickness : ℚ) ∧ g.mBallVel.y < 0 then
    { g with mBallVel := { g.mBallVel with y := g.mBallVel.y * (-1) } }
  else if g.mBallPos.y ≥ 768 - (thickness : ℚ) ∧ g.mBallVel.y > 0 then
    { g with mBallVel := { g.mBallVel with y := g.mBallVel.y * (-1) } }
  else g

/-- The world update of `UpdateGame` (lines 116-167) for a given frame time. -/
def updateWorld (g : Game) (deltaTime : ℚ) : Game :=
  bounceY (bounceX (moveBall (updatePaddle g deltaTime) deltaTime))

/-- The function `Game::UpdateGame` (lines 98-169) once the wait of line 101 is
over.  `ticksA` and `ticksB` are the readings of `SDL_GetTicks` at lines 104
and 107. -/
def UpdateGame (g : Game) (ticksA ticksB : Nat) : Game :=
  let deltaTime := deltaTimeOf ticksA g.mTicksCount
  updateWorld { g with mTicksCount := ticksB % 4294967296 } deltaTime

/-- What one frame reads from its environment. -/
structure Frame where
  events : List Event
  keys : Keys
  ticksA : Nat
  ticksB : Nat
deriving DecidableEq, Repr

/-- The loop `Game::RunLoop` (lines 55-63) over the frames that the
environment supplies: it stops when the running flag is clear, and otherwise
processes input and updates (`GenerateOutput` does not write the state). -/
def RunLoop (g : Game) : List Frame → Game
  | [] => g
  | f :: rest =>
    if g.mIsRunning then
      RunLoop (UpdateGame (ProcessInput g f.events f.keys) f.ticksA f.ticksB) rest
    else g

/-- Repeated world updates, one per frame time of the list. -/
def updates (g : Game) : List ℚ → Game
  | [] => g
  | dt :: rest => updates (updateWorld g dt) rest

/-- The paddle lies in its legal band. -/
def paddleInBand (g : Game) : Prop :=
  65 ≤ g.mPaddlePos.y ∧ g.mPaddlePos.y ≤ 703

instance (g : Game) : Decidable (paddleInBand g) := by
  unfold paddleInBand; infer_instance

/-! ## States of the scenarios -/

/-- A state of the left-boundary scenario with the ball moving right: ball at
(0, 384), ball velocity (200, 235), running. -/
def atLeftMovingRight : Game :=
  { mIsRunning := true, mTicksCount := 0, mPaddleDir := 0,
    mPaddlePos := ⟨10, 384⟩, mBallPos := ⟨0, 384⟩, mBallVel := ⟨200, 235⟩ }

/-- A state of the left-boundary scenario with the ball moving left: ball at
(0, 384), ball velocity (-200, 235), running. -/
def atLeftMovingLeft : Game :=
  { mIsRunning := true, mTicksCount := 0, mPaddleDir := 0,
    mPaddlePos := ⟨10, 384⟩, mBallPos := ⟨0, 384⟩, mBallVel := ⟨-200, 235⟩ }

/-- A state of the right-wall scenario: ball at (1009, 384), ball velocity
(200, 235). -/
def atRightWall : Game :=
  { mIsRunning := true, mTicksCount := 0, mPaddleDir := 0,
    mPaddlePos := ⟨10, 384⟩, mBallPos := ⟨1009, 384⟩, mBallVel := ⟨200, 235⟩ }

/-- A state of the top-wall scenario: ball at (512, 15), ball velocity
(-200, -235). -/
def atTopWall : Game :=
  { mIsRunning := true, mTicksCount := 0, mPaddleDir := 0,
    mPaddlePos := ⟨10, 384⟩, mBallPos := ⟨512, 15⟩, mBallVel := ⟨-200, -235⟩ }

/-- The state of the tunnelling example: paddle centre and ball at y = 384,
ball at x = 26, ball velocity (-200, 0). -/
def tunnelStart : Game :=
  { mIsRunning := true, mTicksCount := 0, mPaddleDir := 0,
    mPaddlePos := ⟨10, 384⟩, mBallPos := ⟨26, 384⟩, mBallVel := ⟨-200, 0⟩ }

/-- A state for the examples: the state after `Initialize` with the down key
held (paddle direction 1). -/
def heldDown : Game :=
  { startState ⟨0, 0⟩ ⟨0, 0⟩ ⟨0, 0⟩ with mPaddleDir := 1 }

/-- A state for the examples: paddle direction 0 and the paddle outside its
band. -/
def idleOutside : Game :=
  { mIsRunning := true, mTicksCount := 0, mPaddleDir := 0,
    mPaddlePos := ⟨10, 1000⟩, mBallPos := ⟨512, 384⟩, mBallVel := ⟨-200, 235⟩ }

/-- A state past the hit window: ball at (16, 384), ball velocity (-200, 0),
running. -/
def pastWindow : Game :=
  { mIsRunning := true, mTicksCount := 0, mPaddleDir := 0,
    mPaddlePos := ⟨10, 384⟩, mBallPos := ⟨16, 384⟩, mBallVel := ⟨-200, 0⟩ }

/-! ## Field lemmas -/

theorem bounceX_paddlePos (g : Game) : (bounceX g).mPaddlePos = g.mPaddlePos := by
  unfold bounceX; simp only []; split_ifs <;> rfl

theorem bounceX_ballPos (g : Game) : (bounceX g).mBallPos = g.mBallPos := by
  unfold bounceX; simp only []; split_ifs <;> rfl

theorem bounceX_velY (g : Game) : (bounceX g).mBallVel.y = g.mBallVel.y := by
  unfold bounceX; simp only []; split_ifs <;> rfl

theorem bounceX_paddleDir (g : Game) : (bounceX g).mPaddleDir = g.mPaddleDir := by
  unfold bounceX; simp only []; split_ifs <;> rfl

theorem bounceY_paddlePos (g : Game) : (bounceY g).mPaddlePos = g.mPaddlePos := by
  unfold bounceY; split_ifs <;> rfl

theorem bounceY_ballPos (g : Game) : (bounceY g).mBallPos = g.mBallPos := by
  unfold bounceY; split_ifs <;> rfl

theorem bounceY_velX (g : Game) : (bounceY g).mBallVel.x = g.mBallVel.x := by
  unfold bounceY; split_ifs <;> rfl

theorem bounceY_running (g : Game) : (bounceY g).mIsRunning = g.mIsRunning := by
  unfold bounceY; split_ifs <;> rfl

theorem bounceY_paddleDir (g : Game) : (bounceY g).mPaddleDir = g.mPaddleDir := by
  unfold bounceY; split_ifs <;> rfl

theorem updatePaddle_ballPos (g : Game) (dt : ℚ) : (updatePaddle g dt).mBallPos = g.mBallPos := by
  unfold updatePaddle; split_ifs <;> rfl

theorem updatePaddle_ballVel (g : Game) (dt : ℚ) : (updatePaddle g dt).mBallVel = g.mBallVel := by
  unfold updatePaddle; split_ifs <;> rfl

theorem updatePaddle_running (g : Game) (dt : ℚ) :
    (updatePaddle g dt).mIsRunning = g.mIsRunning := by
  unfold updatePaddle; split_ifs <;> rfl

theorem updatePaddle_paddleDir (g : Game) (dt : ℚ) :
    (updatePaddle g dt).mPaddleDir = g.mPaddleDir := by
  unfold updatePaddle; split_ifs <;> rfl

theorem updatePaddle_x (g : Game) (dt : ℚ) :
    (updatePaddle g dt).mPaddlePos.x = g.mPaddlePos.x := by
  unfold updatePaddle; split_ifs <;> rfl

theorem updateWorld_paddlePos (g : Game) (dt : ℚ) :
    (updateWorld g dt).mPaddlePos = (updatePaddle g dt).mPaddlePos := by
  unfold updateWorld
  rw [bounceY_paddlePos, bounceX_paddlePos]
  rfl

theorem updateWorld_paddleDir (g : Game) (dt : ℚ) :
    (updateWorld g dt).mPaddleDir = g.mPaddleDir := by
  unfold updateWorld
  rw [bounceY_paddleDir, bounceX_paddleDir]
  show (updatePaddle g dt).mPaddleDir = _
  exact updatePaddle_paddleDir g dt

theorem updateWorld_ballPos (g : Game) (dt : ℚ) :
    (updateWorld g dt).mBallPos =
      ⟨g.mBallPos.x + g.mBallVel.x * dt, g.mBallPos.y + g.mBallVel.y * dt⟩ := by
  unfold updateWorld
  rw [bounceY_ballPos, bounceX_ballPos]
  show Vector2.mk _ _ = _
  rw [updatePaddle_ballPos, updatePaddle_ballVel]

/-! ## The paddle -/

theorem updatePaddle_band_of_moving (g : Game) (dt : ℚ) (h : g.mPaddleDir ≠ 0) :
    paddleInBand (updatePaddle g dt) := by
  unfold paddleInBand updatePaddle
  rw [if_pos h]
  simp only [paddleH, thickness]
  norm_num
  split_ifs with h1 h2
  · norm_num
  · norm_num
  · constructor <;> linarith

theorem updatePaddle_band (g : Game) (dt : ℚ) (h : paddleInBand g) :
    paddleInBand (updatePaddle g dt) := by
  by_cases hd : g.mPaddleDir = 0
  · unfold updatePaddle
    simpa [hd] using h
  · exact updatePaddle_band_of_moving g dt hd

theorem updateWorld_band (g : Game) (dt : ℚ) (h : paddleInBand g) :
    paddleInBand (updateWorld g dt) := by
  have := updatePaddle_band g dt h
  unfold paddleInBand at *
  rw [updateWorld_paddlePos]
  exact this

theorem drainEvents_paddlePos (g : Game) (events : List Event) :
    (drainEvents g events).mPaddlePos = g.mPaddlePos := by
  induction events generalizing g with
  | nil => rfl
  | cons e rest ih =>
    cases e
    · simpa [drainEvents] using ih { g with mIsRunning := false }
    · simpa [drainEvents] using ih g

theorem ProcessInput_paddlePos (g : Game) (events : List Event) (keys : Keys) :
    (ProcessInput g events keys).mPaddlePos = g.mPaddlePos := by
  unfold ProcessInput
  simp only []
  split_ifs <;> simp [drainEvents_paddlePos]

theorem frame_band (g : Game) (f : Frame) (h : paddleInBand g) :
    paddleInBand (UpdateGame (ProcessInput g f.events f.keys) f.ticksA f.ticksB) := by
  unfold UpdateGame
  apply updateWorld_band
  unfold paddleInBand at *
  simpa [ProcessInput_paddlePos] using h

theorem RunLoop_band (g : Game) (frames : List Frame) (h : paddleInBand g) :
    paddleInBand (RunLoop g frames) := by
  induction frames generalizing g with
  | nil => exact h
  | cons f rest ih =>
    unfold RunLoop
    split_ifs
    · exact ih _ (frame_band g f h)
    · exact h

theorem startState_paddle_y (a b c : Vector2) : (startState a b c).mPaddlePos.y = 384 := by
  simp [startState, Initialize]
  norm_num

/-- C1: a paddle inside the band [65, 703] is inside it again after one world
update, for every paddle direction in {-1, 0, 1} and every frame time in
[0, 0.05]; the state set by `Initialize` has paddle y = 384, inside the band;
so the paddle is inside the band after every number of frames of every run of
`RunLoop` from that state, whatever the input and the clock do. -/
theorem C1_paddle_band_invariant :
    (∀ (g : Game) (dt : ℚ), paddleInBand g →
        (g.mPaddleDir = -1 ∨ g.mPaddleDir = 0 ∨ g.mPaddleDir = 1) →
        0 ≤ dt → dt ≤ 5 / 100 → paddleInBand (updateWorld g dt)) ∧
    (∀ a b c : Vector2,
        (startState a b c).mPaddlePos.y = 384 ∧ paddleInBand (startState a b c)) ∧
    (∀ (a b c : Vector2) (frames : List Frame),
        paddleInBand (RunLoop (startState a b c) frames)) := by
  have hstart : ∀ a b c : Vector2, paddleInBand (startState a b c) := by
    intro a b c
    unfold paddleInBand
    rw [startState_paddle_y]
    norm_num
  refine ⟨?_, ?_, ?_⟩
  · intro g dt h _ _ _
    exact updateWorld_band g dt h
  · intro a b c
    exact ⟨startState_paddle_y a b c, hstart a b c⟩
  · intro a b c frames
    exact RunLoop_band _ frames (hstart a b c)

theorem C1_paddle_band_invariant_witness :
    paddleInBand heldDown ∧ paddleInBand (updateWorld heldDown (5 / 100)) :=
  have h : paddleInBand heldDown := by
    simp [paddleInBand, heldDown, startState, Initialize]
    norm_num
  ⟨h, C1_paddle_band_invariant.1 heldDown (5 / 100) h (Or.inr (Or.inr rfl))
    (by norm_num) (le_refl _)⟩

/-- C9: with paddle direction 0 one world update leaves the paddle position
(x and y) as it was, for every state and every frame time; and for every
paddle direction the paddle x is as it was. -/
theorem C9_no_input_keeps_paddle :
    (∀ (g : Game) (dt : ℚ), g.mPaddleDir = 0 →
        (updateWorld g dt).mPaddlePos = g.mPaddlePos) ∧
    (∀ (g : Game) (dt : ℚ), (updateWorld g dt).mPaddlePos.x = g.mPaddlePos.x) := by
  constructor
  · intro g dt h
    rw [updateWorld_paddlePos]
    unfold updatePaddle
    simp [h]
  · intro g dt
    rw [updateWorld_paddlePos]
    exact updatePaddle_x g dt

theorem C9_no_input_keeps_paddle_witness :
    idleOutside.mPaddleDir = 0 ∧
      (updateWorld idleOutside 3).mPaddlePos = idleOutside.mPaddlePos :=
  ⟨rfl, C9_no_input_keeps_paddle.1 idleOutside 3 rfl⟩

/-! ## The ball velocity -/

theorem bounceX_velX (g : Game) :
    (bounceX g).mBallVel.x = g.mBallVel.x ∨ (bounceX g).mBallVel.x = -g.mBallVel.x := by
  unfold bounceX
  simp only []
  split_ifs <;> simp

theorem bounceY_velY (g : Game) :
    (bounceY g).mBallVel.y = g.mBallVel.y ∨ (bounceY g).mBallVel.y = -g.mBallVel.y := by
  unfold bounceY
  split_ifs
  · right; simp
  · right; simp
  · left; rfl

theorem updateWorld_velX (g : Game) (dt : ℚ) :
    (updateWorld g dt).mBallVel.x = g.mBallVel.x ∨
      (updateWorld g dt).mBallVel.x = -g.mBallVel.x := by
  unfold updateWorld
  rw [bounceY_velX]
  have h := bounceX_velX (moveBall (updatePaddle g dt) dt)
  have e : (moveBall (updatePaddle g dt) dt).mBallVel = g.mBallVel := updatePaddle_ballVel g dt
  rw [e] at h
  exact h

theorem updateWorld_velY (g : Game) (dt : ℚ) :
    (updateWorld g dt).mBallVel.y = g.mBallVel.y ∨
      (updateWorld g dt).mBallVel.y = -g.mBallVel.y := by
  unfold updateWorld
  have h := bounceY_velY (bounceX (moveBall (updatePaddle g dt) dt))
  have e : (moveBall (updatePaddle g dt) dt).mBallVel = g.mBallVel := updatePaddle_ballVel g dt
  rw [bounceX_velY, e] at h
  exact h

theorem abs_eq_of_eq_or_neg {a b : ℚ} (h : a = b ∨ a = -b) : |a| = |b| := by
  rcases h with h | h
  · rw [h]
  · rw [h, abs_neg]

theorem drainEvents_ballVel (g : Game) (events : List Event) :
    (drainEvents g events).mBallVel = g.mBallVel := by
  induction events generalizing g with
  | nil => rfl
  | cons e rest ih =>
    cases e
    · simpa [drainEvents] using ih { g with mIsRunning := false }
    · simpa [drainEvents] using ih g

theorem ProcessInput_ballVel (g : Game) (events : List Event) (keys : Keys) :
    (ProcessInput g events keys).mBallVel = g.mBallVel := by
  unfold ProcessInput
  simp only []
  split_ifs <;> simp [drainEvents_ballVel]

theorem RunLoop_speed (g : Game) (frames : List Frame) :
    |(RunLoop g frames).mBallVel.x| = |g.mBallVel.x| ∧
      |(RunLoop g frames).mBallVel.y| = |g.mBallVel.y| := by
  induction frames generalizing g with
  | nil => exact ⟨rfl, rfl⟩
  | cons f rest ih =>
    unfold RunLoop
    split_ifs
    · obtain ⟨hx, hy⟩ := ih (UpdateGame (ProcessInput g f.events f.keys) f.ticksA f.ticksB)
      rw [hx, hy]
      unfold UpdateGame
      simp only []
      constructor
      · rw [abs_eq_of_eq_or_neg (updateWorld_velX _ _)]
        simp [ProcessInput_ballVel]
      · rw [abs_eq_of_eq_or_neg (updateWorld_velY _ _)]
        simp [ProcessInput_ballVel]
    · exact ⟨rfl, rfl⟩

/-- C2: for every state and every frame time, after one world update the
x-velocity of the ball is its old value or the negation of it, and so is the
y-velocity; the absolute values of both components and the squared length of
the velocity are the same before and after; and in every run of `RunLoop`
from the state set by `Initialize` the absolute values are 200 and 235 after
every number of frames. -/
theorem C2_velocity_magnitude_invariant :
    (∀ (g : Game) (dt : ℚ),
        ((updateWorld g dt).mBallVel.x = g.mBallVel.x ∨
          (updateWorld g dt).mBallVel.x = -g.mBallVel.x) ∧
        ((updateWorld g dt).mBallVel.y = g.mBallVel.y ∨
          (updateWorld g dt).mBallVel.y = -g.mBallVel.y) ∧
        |(updateWorld g dt).mBallVel.x| = |g.mBallVel.x| ∧
        |(updateWorld g dt).mBallVel.y| = |g.mBallVel.y| ∧
        (updateWorld g dt).mBallVel.x ^ 2 + (updateWorld g dt).mBallVel.y ^ 2 =
          g.mBallVel.x ^ 2 + g.mBallVel.y ^ 2) ∧
    (∀ (a b c : Vector2) (frames : List Frame),
        |(RunLoop (startState a b c) frames).mBallVel.x| = 200 ∧
        |(RunLoop (startState a b c) frames).mBallVel.y| = 235) := by
  constructor
  · intro g dt
    have hx := updateWorld_velX g dt
    have hy := updateWorld_velY g dt
    refine ⟨hx, hy, abs_eq_of_eq_or_neg hx, abs_eq_of_eq_or_neg hy, ?_⟩
    rcases hx with hx | hx <;> rcases hy with hy | hy <;> rw [hx, hy] <;> ring
  · intro a b c frames
    obtain ⟨hx, hy⟩ := RunLoop_speed (startState a b c) frames
    rw [hx, hy]
    simp [startState, Initialize]

/-! ## The horizontal collision chain -/

theorem moved_ballVel (g : Game) (dt : ℚ) :
    (moveBall (updatePaddle g dt) dt).mBallVel = g.mBallVel :=
  updatePaddle_ballVel g dt

theorem moved_running (g : Game) (dt : ℚ) :
    (moveBall (updatePaddle g dt) dt).mIsRunning = g.mIsRunning :=
  updatePaddle_running g dt

theorem moved_ballPos (g : Game) (dt : ℚ) :
    (moveBall (updatePaddle g dt) dt).mBallPos =
      ⟨g.mBallPos.x + g.mBallVel.x * dt, g.mBallPos.y + g.mBallVel.y * dt⟩ := by
  show Vector2.mk _ _ = _
  rw [updatePaddle_ballPos, updatePaddle_ballVel]

theorem updateWorld_velX_eq (g : Game) (dt : ℚ) :
    (updateWorld g dt).mBallVel.x = (bounceX (moveBall (updatePaddle g dt) dt)).mBallVel.x :=
  bounceY_velX _

theorem updateWorld_running_eq (g : Game) (dt : ℚ) :
    (updateWorld g dt).mIsRunning = (bounceX (moveBall (updatePaddle g dt) dt)).mIsRunning :=
  bounceY_running _

theorem updateWorld_velY_eq (g : Game) (dt : ℚ) :
    (updateWorld g dt).mBallVel.y =
      (bounceY { g with
        mBallPos := ⟨g.mBallPos.x + g.mBallVel.x * dt, g.mBallPos.y + g.mBallVel.y * dt⟩ }).mBallVel.y := by
  unfold updateWorld bounceY
  simp only [bounceX_ballPos, bounceX_velY, moved_ballPos, moved_ballVel]
  split_ifs <;> simp [bounceX_velY, moved_ballVel]

/-- The right-wall branch: a ball at or past the wall inset and moving right is
reflected, and the running flag is kept. -/
theorem bounceX_right (m : Game) (h1 : 1009 ≤ m.mBallPos.x) (hv : 0 < m.mBallVel.x) :
    (bounceX m).mBallVel.x = -m.mBallVel.x ∧ (bounceX m).mIsRunning = m.mIsRunning := by
  unfold bounceX
  simp only [thickness]
  rw [if_neg, if_pos]
  · simp
  · constructor
    · push_cast; linarith
    · exact hv
  · intro h
    linarith [h.2.2.2]

/-- Left of the window a ball that does not move right keeps its x-velocity. -/
theorem bounceX_left_of_window (m : Game) (h1 : m.mBallPos.x < 20) (hv : m.mBallVel.x ≤ 0) :
    (bounceX m).mBallVel.x = m.mBallVel.x := by
  unfold bounceX
  simp only []
  rw [if_neg, if_neg]
  · split_ifs <;> rfl
  · intro h
    linarith [h.2]
  · intro h
    linarith [h.2.2.1]

/-- The exit branch: a ball at or left of 0 that does not move right clears the
running flag. -/
theorem bounceX_exit (m : Game) (h1 : m.mBallPos.x ≤ 0) (hv : m.mBallVel.x ≤ 0) :
    (bounceX m).mIsRunning = false := by
  unfold bounceX
  simp only []
  rw [if_neg, if_neg, if_pos h1]
  · intro h
    linarith [h.2]
  · intro h
    linarith [h.2.2.1]

/-- No branch fires for a ball strictly between 0 and the window. -/
theorem bounceX_idle (m : Game) (h0 : 0 < m.mBallPos.x) (h1 : m.mBallPos.x < 20) :
    bounceX m = m := by
  unfold bounceX
  simp only [thickness]
  rw [if_neg, if_neg, if_neg]
  · linarith
  · intro h
    have := h.1
    push_cast at this
    linarith
  · intro h
    linarith [h.2.2.1]

/-! ## The scenarios -/

/-- C4, counterexample: the ball at x = 0 with velocity (200, 235), running,
frame time 0.05: the update moves the ball to x = 10 and the running flag is
still true afterwards. -/
theorem C4_left_boundary_counterexample :
    atLeftMovingRight.mBallPos.x = 0 ∧ atLeftMovingRight.mIsRunning = true ∧
      (16 / 1000 : ℚ) ≤ 5 / 100 ∧
      (updateWorld atLeftMovingRight (5 / 100)).mBallPos.x = 10 ∧
      (updateWorld atLeftMovingRight (5 / 100)).mIsRunning = true := by
  refine ⟨rfl, rfl, by norm_num, ?_, ?_⟩
  · rw [updateWorld_ballPos]; norm_num [atLeftMovingRight]
  · rw [updateWorld_running_eq, bounceX_idle]
    · rw [moved_running]; rfl
    · rw [moved_ballPos]; norm_num [atLeftMovingRight]
    · rw [moved_ballPos]; norm_num [atLeftMovingRight]

/-- C4, amended: for every state in which the ball is at x = 0 before the
update and its x-velocity is not positive, for every y-velocity, ball y,
paddle state and frame time in [0.016, 0.05], the running flag is false after
one update. -/
theorem C4_left_boundary_not_moving_right (g : Game) (dt : ℚ)
    (hx : g.mBallPos.x = 0) (hv : g.mBallVel.x ≤ 0)
    (hlo : 16 / 1000 ≤ dt) (_hhi : dt ≤ 5 / 100) :
    (updateWorld g dt).mIsRunning = false := by
  have hdt : 0 ≤ dt := by linarith
  rw [updateWorld_running_eq, bounceX_exit]
  · rw [moved_ballPos, hx]
    show (0 : ℚ) + g.mBallVel.x * dt ≤ 0
    have := mul_nonpos_of_nonpos_of_nonneg hv hdt
    linarith
  · rw [moved_ballVel]; exact hv

theorem C4_left_boundary_not_moving_right_witness :
    atLeftMovingLeft.mBallPos.x = 0 ∧ atLeftMovingLeft.mBallVel.x ≤ 0 ∧
      atLeftMovingLeft.mIsRunning = true ∧
      (updateWorld atLeftMovingLeft (5 / 100)).mIsRunning = false :=
  ⟨rfl, by norm_num [atLeftMovingLeft], rfl,
    C4_left_boundary_not_moving_right atLeftMovingLeft (5 / 100) rfl
      (by norm_num [atLeftMovingLeft]) (by norm_num) (le_refl _)⟩

/-- C5: for every state with the ball at x = 1009 and x-velocity +200 before
the update, and every frame time in [0, 0.05], the x-velocity is -200 after
one update and the running flag is what it was. -/
theorem C5_right_wall_reflects (g : Game) (dt : ℚ)
    (hx : g.mBallPos.x = 1009) (hv : g.mBallVel.x = 200)
    (hlo : 0 ≤ dt) (_hhi : dt ≤ 5 / 100) :
    (updateWorld g dt).mBallVel.x = -200 ∧
      (updateWorld g dt).mIsRunning = g.mIsRunning := by
  have h := bounceX_right (moveBall (updatePaddle g dt) dt)
    (by rw [moved_ballPos, hx, hv]
        show (1009 : ℚ) ≤ 1009 + 200 * dt
        linarith)
    (by rw [moved_ballVel, hv]; norm_num)
  rw [updateWorld_velX_eq, updateWorld_running_eq, h.1, h.2, moved_ballVel, moved_running, hv]
  exact ⟨rfl, rfl⟩

theorem C5_right_wall_reflects_witness :
    atRightWall.mBallPos.x = 1009 ∧ atRightWall.mBallVel.x = 200 ∧
      (updateWorld atRightWall (5 / 100)).mBallVel.x = -200 ∧
      (updateWorld atRightWall (5 / 100)).mIsRunning = atRightWall.mIsRunning :=
  ⟨rfl, rfl, C5_right_wall_reflects atRightWall (5 / 100) rfl rfl (by norm_num) (le_refl _)⟩

/-- C6: for every state and every frame time in [0, 0.05], if before the update
the ball is at y = 15 with y-velocity -235, the y-velocity is +235 after one
update, and if the ball is at y = 753 with y-velocity +235, it is -235
afterwards; the x-position, x-velocity and paddle are arbitrary, so this holds
whichever branch of the horizontal chain fires in the same update. -/
theorem C6_top_bottom_wall_reflects (g : Game) (dt : ℚ) (hlo : 0 ≤ dt) (_hhi : dt ≤ 5 / 100) :
    (g.mBallPos.y = 15 → g.mBallVel.y = -235 → (updateWorld g dt).mBallVel.y = 235) ∧
    (g.mBallPos.y = 753 → g.mBallVel.y = 235 → (updateWorld g dt).mBallVel.y = -235) := by
  constructor
  · intro hy hv
    rw [updateWorld_velY_eq]
    unfold bounceY
    simp only [hy, hv, thickness]
    rw [if_pos]
    · norm_num
    · constructor
      · push_cast; linarith
      · norm_num
  · intro hy hv
    rw [updateWorld_velY_eq]
    unfold bounceY
    simp only [hy, hv, thickness]
    rw [if_neg, if_pos]
    · norm_num
    · constructor
      · push_cast; linarith
      · norm_num
    · intro h
      linarith [h.2]

theorem C6_top_bottom_wall_reflects_witness :
    atTopWall.mBallPos.y = 15 ∧ atTopWall.mBallVel.y = -235 ∧
      (updateWorld atTopWall (5 / 100)).mBallVel.y = 235 :=
  ⟨rfl, rfl, (C6_top_bottom_wall_reflects atTopWall (5 / 100) (by norm_num) (le_refl _)).1
    rfl rfl⟩

/-! ## The frame time -/

theorem deltaTimeOf_eq_min (now ticks : Nat) :
    deltaTimeOf now ticks = min ((u32sub now ticks : ℚ) / 1000) (5 / 100) := by
  unfold deltaTimeOf
  simp only [gt_iff_lt]
  split_ifs with h
  · rw [min_eq_right (le_of_lt h)]
  · rw [min_eq_left (not_lt.mp h)]

/-- After the wait of line 101 the frame time is at least 0.016: if the reading
`seen` of the tick counter passed `mTicksCount + 16` and the reading `now` of
line 104 is not earlier (all values below 2^31, so nothing wraps), then the
frame time lies in [0.016, 0.05]. -/
theorem deltaTimeOf_after_wait (seen now ticks : Nat) (hnow : now < 2147483648)
    (hticks : ticks + 16 < 2147483648) (hseen : seen ≤ now) (hpassed : SDL_TICKS_PASSED seen (ticks + 16) = true) :
    16 / 1000 ≤ deltaTimeOf now ticks ∧ deltaTimeOf now ticks ≤ 5 / 100 := by
  have he : 16 ≤ u32sub now ticks := by
    have h1 : now % 4294967296 = now := Nat.mod_eq_of_lt (by omega)
    have h2 : ticks % 4294967296 = ticks := Nat.mod_eq_of_lt (by omega)
    have h3 : seen % 4294967296 = seen := Nat.mod_eq_of_lt (by omega)
    have h4 : (ticks + 16) % 4294967296 = ticks + 16 := Nat.mod_eq_of_lt (by omega)
    unfold SDL_TICKS_PASSED at hpassed
    simp only [Bool.or_eq_true, beq_iff_eq, decide_eq_true_eq] at hpassed
    unfold u32sub at *
    rw [h4, h3] at hpassed
    rw [h1, h2]
    omega
  have heq : (16 : ℚ) ≤ (u32sub now ticks : ℚ) := by exact_mod_cast he
  rw [deltaTimeOf_eq_min]
  exact ⟨le_min (by linarith) (by norm_num), min_le_right _ _⟩

theorem updates_append (g : Game) (xs ys : List ℚ) :
    updates g (xs ++ ys) = updates (updates g xs) ys := by
  induction xs generalizing g with
  | nil => rfl
  | cons x rest ih => exact ih (updateWorld g x)

theorem updatePaddle_down_y (g : Game) (dt : ℚ) (hdir : g.mPaddleDir = 1)
    (hy : 65 ≤ g.mPaddlePos.y) (hdt : 0 ≤ dt) :
    (updatePaddle g dt).mPaddlePos.y = min 703 (g.mPaddlePos.y + 300 * dt) := by
  unfold updatePaddle
  simp only [hdir, paddleH, thickness]
  norm_num
  split_ifs with h1 h2
  · exfalso; linarith
  · rw [min_eq_left (le_of_lt h2)]
  · rw [min_eq_right (not_lt.mp h2)]

theorem updates_down (dts : List ℚ) :
    ∀ g : Game, g.mPaddleDir = 1 → paddleInBand g →
      (∀ dt ∈ dts, 16 / 1000 ≤ dt ∧ dt ≤ 5 / 100) →
      (updates g dts).mPaddlePos.y ≤ 703 ∧
        min 703 (g.mPaddlePos.y + 48 / 10 * (dts.length : ℚ)) ≤
          (updates g dts).mPaddlePos.y := by
  induction dts with
  | nil =>
    intro g _ hb _
    exact ⟨hb.2, by simp [updates]⟩
  | cons dt rest ih =>
    intro g hdir hb hdts
    have hdt := hdts dt (List.mem_cons_self _ _)
    have hrest : ∀ d ∈ rest, 16 / 1000 ≤ d ∧ d ≤ 5 / 100 :=
      fun d hd => hdts d (List.mem_cons_of_mem _ hd)
    have hdir1 : (updateWorld g dt).mPaddleDir = 1 := by rw [updateWorld_paddleDir, hdir]
    have hb1 : paddleInBand (updateWorld g dt) := updateWorld_band g dt hb
    have hy1 : (updateWorld g dt).mPaddlePos.y = min 703 (g.mPaddlePos.y + 300 * dt) := by
      rw [updateWorld_paddlePos]
      exact updatePaddle_down_y g dt hdir hb.1 (by linarith [hdt.1])
    obtain ⟨h1, h2⟩ := ih (updateWorld g dt) hdir1 hb1 hrest
    refine ⟨h1, le_trans ?_ h2⟩
    rw [hy1, List.length_cons]
    push_cast
    have hn : (0 : ℚ) ≤ (rest.length : ℚ) := Nat.cast_nonneg _
    apply le_min
    · exact min_le_left _ _
    · by_cases hc : 703 ≤ g.mPaddlePos.y + 300 * dt
      · rw [min_eq_left hc]
        apply le_trans (min_le_left _ _)
        nlinarith
      · rw [min_eq_right (le_of_lt (not_le.mp hc))]
        apply le_trans (min_le_right _ _)
        nlinarith [hdt.1]

/-- C7: there is a frame count N ≤ 67 such that, from every state with paddle
y = 384 and paddle direction +1 and for every sequence of frame times in
[0.016, 0.05], the paddle y is exactly 703 after every number n ≥ N of world
updates, and after every number of updates it is at most 703. -/
theorem C7_down_key_reaches_lower_stop :
    ∃ N : Nat, N ≤ 67 ∧
      ∀ (g : Game) (dts : List ℚ), g.mPaddlePos.y = 384 → g.mPaddleDir = 1 →
        (∀ dt ∈ dts, 16 / 1000 ≤ dt ∧ dt ≤ 5 / 100) →
        (N ≤ dts.length → (updates g dts).mPaddlePos.y = 703) ∧
          (updates g dts).mPaddlePos.y ≤ 703 := by
  refine ⟨67, le_refl _, ?_⟩
  intro g dts hy hdir hdts
  have hb : paddleInBand g := by
    unfold paddleInBand
    rw [hy]
    norm_num
  obtain ⟨h1, h2⟩ := updates_down dts g hdir hb hdts
  refine ⟨?_, h1⟩
  intro hlen
  apply le_antisymm h1
  have hl : (67 : ℚ) ≤ (dts.length : ℚ) := by exact_mod_cast hlen
  rw [hy, min_eq_left (by linarith)] at h2
  exact h2

theorem C7_down_key_reaches_lower_stop_witness :
    heldDown.mPaddlePos.y = 384 ∧ heldDown.mPaddleDir = 1 ∧
      (updates heldDown (List.replicate 67 (16 / 1000))).mPaddlePos.y = 703 := by
  have hy : heldDown.mPaddlePos.y = 384 := by
    simp [heldDown, startState, Initialize]
    norm_num
  refine ⟨hy, rfl, ?_⟩
  obtain ⟨N, hN, h⟩ := C7_down_key_reaches_lower_stop
  refine (h heldDown (List.replicate 67 (16 / 1000)) hy rfl ?_).1 ?_
  · intro dt hd
    rw [List.eq_of_mem_replicate hd]
    norm_num
  · simpa using hN

/-! ## Tunnelling through the hit window -/

theorem updateWorld_stays_stopped (g : Game) (dt : ℚ) (h : g.mIsRunning = false) :
    (updateWorld g dt).mIsRunning = false := by
  rw [updateWorld_running_eq]
  unfold bounceX
  simp only []
  split_ifs <;> simp [moved_running, h]

theorem updateWorld_past_window (g : Game) (dt : ℚ) (hx : g.mBallPos.x < 20)
    (hv : g.mBallVel.x < 0) (hdt : 0 ≤ dt) :
    (updateWorld g dt).mBallVel.x = g.mBallVel.x ∧
      (updateWorld g dt).mBallPos.x = g.mBallPos.x + g.mBallVel.x * dt := by
  constructor
  · rw [updateWorld_velX_eq, bounceX_left_of_window]
    · rw [moved_ballVel]
    · rw [moved_ballPos]
      show g.mBallPos.x + g.mBallVel.x * dt < 20
      have := mul_nonpos_of_nonpos_of_nonneg (le_of_lt hv) hdt
      linarith
    · rw [moved_ballVel]; exact le_of_lt hv
  · rw [updateWorld_ballPos]

theorem updates_past_window (lo : ℚ) (hlo : 0 ≤ lo) (dts : List ℚ) :
    ∀ g : Game, g.mBallPos.x < 20 → g.mBallVel.x < 0 → (∀ dt ∈ dts, lo ≤ dt) →
      (updates g dts).mBallVel.x = g.mBallVel.x ∧
        (updates g dts).mBallPos.x ≤ g.mBallPos.x + g.mBallVel.x * lo * (dts.length : ℚ) := by
  induction dts with
  | nil =>
    intro g _ _ _
    simp [updates]
  | cons dt rest ih =>
    intro g hx hv hdts
    have hdt := hdts dt (List.mem_cons_self _ _)
    have hrest : ∀ d ∈ rest, lo ≤ d := fun d hd => hdts d (List.mem_cons_of_mem _ hd)
    obtain ⟨e1, e2⟩ := updateWorld_past_window g dt hx hv (le_trans hlo hdt)
    have hstep : g.mBallVel.x * dt ≤ g.mBallVel.x * lo :=
      mul_le_mul_of_nonpos_left hdt (le_of_lt hv)
    have hlo0 : g.mBallVel.x * lo ≤ 0 := mul_nonpos_of_nonpos_of_nonneg (le_of_lt hv) hlo
    obtain ⟨h1, h2⟩ := ih (updateWorld g dt) (by rw [e2]; linarith) (by rw [e1]; exact hv) hrest
    rw [e1, e2] at h2
    refine ⟨by rw [← e1]; exact h1, ?_⟩
    show (updates (updateWorld g dt) rest).mBallPos.x ≤ _
    rw [List.length_cons]
    push_cast
    linarith

theorem updates_exit (g : Game) (dts : List ℚ) (hx : g.mBallPos.x < 20)
    (hv : g.mBallVel.x = -200) (hdts : ∀ dt ∈ dts, 16 / 1000 ≤ dt ∧ dt ≤ 5 / 100)
    (hlen : 7 ≤ dts.length) :
    (updates g dts).mBallPos.x ≤ 0 ∧ (updates g dts).mIsRunning = false := by
  have hv0 : g.mBallVel.x < 0 := by rw [hv]; norm_num
  have hpos : (updates g dts).mBallPos.x ≤ 0 := by
    have h := (updates_past_window (16 / 1000) (by norm_num) dts g hx hv0
      (fun dt hd => (hdts dt hd).1)).2
    have hl : (7 : ℚ) ≤ (dts.length : ℚ) := by exact_mod_cast hlen
    rw [hv] at h
    linarith
  refine ⟨hpos, ?_⟩
  have hne : dts ≠ [] := by
    intro h
    rw [h] at hlen
    simp at hlen
  have hsplit := List.dropLast_append_getLast hne
  have hinit : ∀ dt ∈ dts.dropLast, (0 : ℚ) ≤ dt := by
    intro dt hd
    have := (hdts dt (List.dropLast_subset dts hd)).1
    linarith
  obtain ⟨e1, e2⟩ := updates_past_window 0 (le_refl _) dts.dropLast g hx hv0 hinit
  have hfinal : updates g dts = updateWorld (updates g dts.dropLast) (dts.getLast hne) := by
    conv_lhs => rw [← hsplit]
    rw [updates_append]
    rfl
  rw [hfinal, updateWorld_running_eq]
  apply bounceX_exit
  · rw [hfinal, updateWorld_ballPos] at hpos
    rw [moved_ballPos]
    exact hpos
  · rw [moved_ballVel, e1]
    exact le_of_lt hv0

/-- C10: the ball can pass the hit window of the paddle without being
reflected.  With the paddle in its band at y = 384, the ball level with it at
x = 26 (right of the window) and velocity (-200, 0), one world update with
frame time 0.05 leaves the ball at x = 16 < 20 with x-velocity still -200.
From every state with the ball at x < 20 and moving left, no sequence of
later updates changes the x-velocity; and with x-velocity -200 and frame times
in [0.016, 0.05], after 7 or more updates the ball is at x ≤ 0 and the running
flag is false. -/
theorem C10_ball_tunnels_through_window :
    (paddleInBand tunnelStart ∧ tunnelStart.mPaddlePos.y = tunnelStart.mBallPos.y ∧
      tunnelStart.mBallVel = ⟨-200, 0⟩ ∧ 25 < tunnelStart.mBallPos.x ∧
      (16 / 1000 : ℚ) ≤ 5 / 100 ∧
      (updateWorld tunnelStart (5 / 100)).mBallPos.x = 16 ∧
      (updateWorld tunnelStart (5 / 100)).mBallVel.x = -200) ∧
    (∀ (g : Game) (dts : List ℚ), g.mBallPos.x < 20 → g.mBallVel.x < 0 →
      (∀ dt ∈ dts, (0 : ℚ) ≤ dt) → (updates g dts).mBallVel.x = g.mBallVel.x) ∧
    (∀ (g : Game) (dts : List ℚ), g.mBallPos.x < 20 → g.mBallVel.x = -200 →
      (∀ dt ∈ dts, 16 / 1000 ≤ dt ∧ dt ≤ 5 / 100) → 7 ≤ dts.length →
      (updates g dts).mBallPos.x ≤ 0 ∧ (updates g dts).mIsRunning = false) := by
  refine ⟨⟨?_, rfl, rfl, ?_, by norm_num, ?_, ?_⟩, ?_, ?_⟩
  · norm_num [paddleInBand, tunnelStart]
  · norm_num [tunnelStart]
  · rw [updateWorld_ballPos]; norm_num [tunnelStart]
  · rw [updateWorld_velX_eq, bounceX_left_of_window]
    · rw [moved_ballVel]; rfl
    · rw [moved_ballPos]; norm_num [tunnelStart]
    · rw [moved_ballVel]; norm_num [tunnelStart]
  · intro g dts hx hv hdts
    exact (updates_past_window 0 (le_refl _) dts g hx hv hdts).1
  · intro g dts hx hv hdts hlen
    exact updates_exit g dts hx hv hdts hlen

theorem C10_ball_tunnels_through_window_witness :
    pastWindow.mBallPos.x < 20 ∧ pastWindow.mBallVel.x = -200 ∧
      pastWindow.mIsRunning = true ∧
      (updates pastWindow (List.replicate 7 (16 / 1000))).mBallPos.x ≤ 0 ∧
      (updates pastWindow (List.replicate 7 (16 / 1000))).mIsRunning = false :=
  have hx : pastWindow.mBallPos.x < 20 := by norm_num [pastWindow]
  ⟨hx, rfl, rfl,
    C10_ball_tunnels_through_window.2.2 pastWindow (List.replicate 7 (16 / 1000)) hx rfl
      (fun dt hd => by rw [List.eq_of_mem_replicate hd]; norm_num) (by simp)⟩

end Pong
